import Mathlib

/-!
Shallow embedding of the Sudut Buku library-management backend
(src/backend/src/{main.rs, search.rs, book.rs, loan.rs, member.rs}).

Rust strings are modelled as lists of characters; `String::to_lowercase`
is modelled with the per-character `Char.toLower` (ASCII case folding);
`str::contains` is modelled by an executable substring scan.  i32 columns
become `Int`.  The MySQL tables become lists of rows inside a `DBState`,
with `find?` modelling `SELECT ... WHERE id = ?` / `fetch_one` (first
matching row) and a conditional `map` modelling `UPDATE ... WHERE id = ?`
(every matching row is updated).  The AUTO_INCREMENT id counters of the
`loans` and `books` tables are carried explicitly in the state.
Each handler is embedded as a pure function from inputs and the current
state to (response, next state); a rolled-back transaction returns the
state unchanged.
-/

namespace SudutBuku

/-- A Rust string, modelled as its character sequence. -/
abbrev Str := List Char

/-- Models Rust `String::to_lowercase` (per-character case folding). -/
def lowerStr (s : Str) : Str := s.map Char.toLower

/-- Helper for the substring scan: is the first list a prefix of the second
(character-wise equality)? -/
def prefChk : Str → Str → Bool
  | [], _ => true
  | _ :: _, [] => false
  | a :: n, b :: h => a == b && prefChk n h

/-- Models Rust `str::contains(&needle)` on `hay`: does `needle` occur in
`hay` as a contiguous substring? -/
def containsSub (hay needle : Str) : Bool :=
  match hay with
  | [] => needle.isEmpty
  | _ :: t => prefChk needle hay || containsSub t needle

/-- Row of the `books` table (src/backend/src/book.rs, struct Book). -/
structure Book where
  id : Int
  title : Str
  author : Str
  category : Str
  year : Int
  total_copies : Int
  available_copies : Int
deriving DecidableEq

/-- Search modes (src/backend/src/search.rs, enum SearchMode). -/
inductive SearchMode where
  | Title
  | Author
  | Category
deriving DecidableEq

/-- Models `SearchMode::from_str` (src/backend/src/search.rs lines 13-20). -/
def SearchMode.fromStr (s : Str) : Option SearchMode :=
  if s = ("title").toList then some .Title
  else if s = ("author").toList then some .Author
  else if s = ("category").toList then some .Category
  else none

/-- The field of a book selected by the search mode (the `match mode` inside
`search_books`, src/backend/src/search.rs lines 31-35). -/
def selectField (mode : SearchMode) (b : Book) : Str :=
  match mode with
  | .Title => b.title
  | .Author => b.author
  | .Category => b.category

/-- Models `search_books` (src/backend/src/search.rs lines 25-41): lowercase
the query once, keep the books whose selected field, lowercased, contains it. -/
def search_books (books : List Book) (mode : SearchMode) (query : Str) : List Book :=
  let q := lowerStr query
  books.filter (fun book => containsSub (lowerStr (selectField mode book)) q)

/-- Recursion worker for `chunksOf`.  The first argument is fuel bounding
the recursion depth structurally; since every step consumes at least one
element of the list, fuel equal to the list's length is always enough, so
the out-of-fuel case (third pattern) is unreachable. -/
def chunksOfAux : Nat → Nat → List Book → List (List Book)
  | _, _, [] => []
  | _, 0, l => [l]
  | 0, _ + 1, x :: xs => [x :: xs]
  | fuel + 1, c + 1, x :: xs =>
    ((x :: xs).take (c + 1)) :: chunksOfAux fuel (c + 1) ((x :: xs).drop (c + 1))

/-- Models Rust `slice::chunks(c)`: split a list into contiguous chunks of
size `c` (the last one possibly shorter).  `slice::chunks` panics when
`c = 0`; in `search_handler` the chunk size is always positive (the
snapshot is non-empty and `num_cores ≥ 1`), so the `c = 0` case of the
worker is dead code and any total value serves. -/
def chunksOf (c : Nat) (l : List Book) : List (List Book) :=
  chunksOfAux l.length c l

/-- Models the mode resolution of `search_handler`
(src/backend/src/main.rs lines 152-156):
`params.mode.as_deref().and_then(SearchMode::from_str).unwrap_or(Title)`. -/
def resolveMode (m : Option Str) : SearchMode :=
  (m.bind SearchMode.fromStr).getD .Title

/-- Models the pure computation of `search_handler`
(src/backend/src/main.rs lines 133-193) on an already-fetched snapshot:
resolve the mode, split the snapshot into `ceil(len / num_cores)`-sized
chunks with `num_cores = numCpus.max 1`, filter every chunk with
`search_books`, and append the partial results in chunk order.  The model
assumes every spawned task completes (`task.await` succeeds); a panicking
task would only drop its chunk. -/
def search_handler (books : List Book) (m : Option Str) (q : Str)
    (numCpus : Nat) : List Book :=
  let mode := resolveMode m
  let num_cores := Nat.max numCpus 1
  if books.length = 0 then []
  else
    let chunk_size := (books.length + num_cores - 1) / num_cores
    List.flatten ((chunksOf chunk_size books).map
      (fun chunk => search_books chunk mode q))

/-- Calendar date, modelling `chrono::NaiveDate` restricted to the
unsigned years producible by the `"%Y-%m-%d"` parse below. -/
structure Date where
  year : Nat
  month : Nat
  day : Nat
deriving DecidableEq

/-- Models chrono's `Ord` on `NaiveDate`: lexicographic on
(year, month, day). -/
def Date.lt (a b : Date) : Bool :=
  Nat.blt a.year b.year ||
    (Nat.beq a.year b.year &&
      (Nat.blt a.month b.month ||
        (Nat.beq a.month b.month && Nat.blt a.day b.day)))

/-- Gregorian leap-year rule, as used by chrono's calendar validation. -/
def isLeapYear (y : Nat) : Bool :=
  (y % 4 == 0 && y % 100 != 0) || y % 400 == 0

/-- Number of days of month `m` of year `y` (Gregorian calendar). -/
def daysInMonth (y m : Nat) : Nat :=
  if m == 2 then (if isLeapYear y then 29 else 28)
  else if m == 4 || m == 6 || m == 9 || m == 11 then 30
  else 31

/-- Split a character list at every occurrence of the separator. -/
def splitSep (sep : Char) : Str → List Str
  | [] => [[]]
  | c :: rest =>
    if c = sep then [] :: splitSep sep rest
    else
      match splitSep sep rest with
      | [] => [[c]]
      | g :: gs => (c :: g) :: gs

/-- Decimal value of a digit string. -/
def digitsToNat (s : Str) : Nat :=
  s.foldl (fun acc c => acc * 10 + (c.toNat - ('0').toNat)) 0

/-- Models `NaiveDate::parse_from_str(s, "%Y-%m-%d")`
(src/backend/src/main.rs line 314): three dash-separated decimal fields,
nothing else in the string, and the numbers must form a valid calendar
date, otherwise the parse fails. -/
def parseDueDate (s : Str) : Option Date :=
  match splitSep ('-') s with
  | [ys, ms, ds] =>
    if ys ≠ [] ∧ ms ≠ [] ∧ ds ≠ [] ∧
        ys.all Char.isDigit = true ∧ ms.all Char.isDigit = true ∧
        ds.all Char.isDigit = true then
      let y := digitsToNat ys
      let m := digitsToNat ms
      let d := digitsToNat ds
      if 1 ≤ m ∧ m ≤ 12 ∧ 1 ≤ d ∧ d ≤ daysInMonth y m then
        some ⟨y, m, d⟩
      else none
    else none
  | _ => none

/-- Models `chrono::NaiveDateTime`: a date plus the second within the day.
Only equality of such values matters to the embedded handlers. -/
structure NaiveDateTime where
  date : Date
  sec : Nat
deriving DecidableEq

/-- Stand-in for `NaiveDateTime::MIN`, the sentinel the handlers put in
rejection responses.  Its exact value is never inspected. -/
def NaiveDateTime.MIN : NaiveDateTime := ⟨⟨0, 1, 1⟩, 0⟩

/-- Row of the `loans` table (src/backend/src/loan.rs, struct Loan). -/
structure Loan where
  id : Int
  book_id : Int
  member_id : Int
  borrowed_at : NaiveDateTime
  due_at : NaiveDateTime
  returned_at : Option NaiveDateTime
deriving DecidableEq

/-- Borrow request payload (src/backend/src/loan.rs, struct NewLoan). -/
structure NewLoan where
  book_id : Int
  member_id : Int
  due_date : Str
deriving DecidableEq

/-- Catalog-insert payload (src/backend/src/book.rs, struct NewBook). -/
structure NewBook where
  title : Str
  author : Str
  category : Str
  year : Int
  total_copies : Int
deriving DecidableEq

/-- The persistent state the handlers touch: the `books` and `loans`
tables plus their AUTO_INCREMENT counters (`members` plays no part in the
claims).  A fresh id handed out by MySQL is modelled by the counter. -/
structure DBState where
  books : List Book
  loans : List Loan
  nextBookId : Int
  nextLoanId : Int
deriving DecidableEq

/-- Models `create_book` (src/backend/src/main.rs lines 55-100) on the
success path: `INSERT INTO books ... VALUES (?, ?, ?, ?, ?, ?)` binds
`payload.total_copies` for both `total_copies` and `available_copies`
(line 68: initial available stock = total), then the new row is fetched
back and returned. -/
def create_book (payload : NewBook) (st : DBState) : Book × DBState :=
  let b : Book :=
    { id := st.nextBookId
      title := payload.title
      author := payload.author
      category := payload.category
      year := payload.year
      total_copies := payload.total_copies
      available_copies := payload.total_copies }
  (b, { st with books := st.books ++ [b], nextBookId := st.nextBookId + 1 })

/-- The rejection body `create_loan` serialises on every error path:
a `Loan` with `id = -1`, the payload's book and member, `borrowed_at =
NaiveDateTime::MIN`, and no `returned_at`. -/
def errorLoan (payload : NewLoan) (due_at : NaiveDateTime) : Loan :=
  { id := -1
    book_id := payload.book_id
    member_id := payload.member_id
    borrowed_at := NaiveDateTime.MIN
    due_at := due_at
    returned_at := none }

/-- Models `create_loan` (src/backend/src/main.rs lines 309-427).
Steps, in source order: parse and validate `due_date` before any
database access (reject with the error loan, state untouched); inside a
transaction read the book's `available_copies` (`fetch_one`; a missing
row is a fetch error → rollback); reject out-of-stock when
`available_copies <= 0` (rollback, state untouched); otherwise insert
the loan row (`borrowed_at` filled by the database with the current
time, `returned_at` NULL), decrement the book's `available_copies` by 1,
fetch the inserted row back, and commit.  `today` models
`Utc::now().date_naive()` and `now` the database's insert timestamp. -/
def create_loan (today : Date) (now : NaiveDateTime) (payload : NewLoan)
    (st : DBState) : Loan × DBState :=
  match parseDueDate payload.due_date with
  | none => (errorLoan payload NaiveDateTime.MIN, st)
  | some date =>
    if Date.lt date today then (errorLoan payload NaiveDateTime.MIN, st)
    else
      let due_at : NaiveDateTime := ⟨date, 0⟩
      match st.books.find? (fun b => b.id == payload.book_id) with
      | none => (errorLoan payload due_at, st)
      | some b =>
        if b.available_copies ≤ 0 then (errorLoan payload due_at, st)
        else
          let newLoan : Loan :=
            { id := st.nextLoanId
              book_id := payload.book_id
              member_id := payload.member_id
              borrowed_at := now
              due_at := due_at
              returned_at := none }
          let books := st.books.map (fun bk =>
            if bk.id == payload.book_id then
              { bk with available_copies := bk.available_copies - 1 }
            else bk)
          (newLoan,
            { st with
                books := books
                loans := st.loans ++ [newLoan]
                nextLoanId := st.nextLoanId + 1 })

/-- Models `return_loan` (src/backend/src/main.rs lines 430-486).
Inside a transaction: fetch the loan's `book_id` (`fetch_one`; a missing
loan is a fetch error → rollback, respond `false`); set `returned_at` to
the current timestamp on every loan row with that id — with no guard
against the loan being returned already; increment the book's
`available_copies` by 1 (an UPDATE matching no row still succeeds);
commit and respond `true`. -/
def return_loan (now : NaiveDateTime) (id : Int) (st : DBState) :
    Bool × DBState :=
  match st.loans.find? (fun l => l.id == id) with
  | none => (false, st)
  | some loan =>
    let loans := st.loans.map (fun l =>
      if l.id == id then { l with returned_at := some now } else l)
    let books := st.books.map (fun b =>
      if b.id == loan.book_id then
        { b with available_copies := b.available_copies + 1 }
      else b)
    (true, { st with books := books, loans := loans })

/-- The stock invariant of the spec's data model: every book satisfies
`0 ≤ available_copies ≤ total_copies`. -/
def stockInvariant (st : DBState) : Prop :=
  ∀ b ∈ st.books, 0 ≤ b.available_copies ∧
    b.available_copies ≤ b.total_copies

instance (st : DBState) : Decidable (stockInvariant st) := by
  unfold stockInvariant; infer_instance

/-- Modelled from the spec's words: the query occurs in the field
selected by the mode as a case-insensitive substring. -/
def MatchesCI (mode : SearchMode) (query : Str) (b : Book) : Prop :=
  ∃ pre post,
    lowerStr (selectField mode b) = pre ++ lowerStr query ++ post

/-! ## Helper lemmas -/

theorem prefChk_iff (n : Str) : ∀ h : Str,
    prefChk n h = true ↔ ∃ t, h = n ++ t := by
  induction n with
  | nil =>
    intro h
    simp [prefChk]
  | cons a n ih =>
    intro h
    cases h with
    | nil =>
      simp [prefChk]
    | cons b t =>
      simp only [prefChk, Bool.and_eq_true, beq_iff_eq]
      constructor
      · rintro ⟨rfl, hp⟩
        obtain ⟨t2, rfl⟩ := (ih t).mp hp
        exact ⟨t2, rfl⟩
      · rintro ⟨t2, heq⟩
        cases heq
        exact ⟨rfl, (ih _).mpr ⟨t2, rfl⟩⟩

theorem containsSub_iff (n : Str) : ∀ h : Str,
    containsSub h n = true ↔ ∃ pre post, h = pre ++ n ++ post := by
  intro h
  induction h with
  | nil =>
    simp only [containsSub, List.isEmpty_iff]
    constructor
    · rintro rfl
      exact ⟨[], [], rfl⟩
    · rintro ⟨pre, post, heq⟩
      cases pre <;> cases n <;> simp_all
  | cons b t ih =>
    simp only [containsSub, Bool.or_eq_true]
    constructor
    · rintro (hp | hc)
      · obtain ⟨t2, heq⟩ := (prefChk_iff n _).mp hp
        exact ⟨[], t2, by simp [heq]⟩
      · obtain ⟨pre, post, heq⟩ := ih.mp hc
        exact ⟨b :: pre, post, by simp [heq]⟩
    · rintro ⟨pre, post, heq⟩
      cases pre with
      | nil =>
        left
        exact (prefChk_iff n _).mpr ⟨post, by simpa using heq⟩
      | cons p ps =>
        right
        refine ih.mpr ⟨ps, post, ?_⟩
        have h2 := congrArg List.tail heq
        simpa using h2

theorem containsSub_nil_right (h : Str) : containsSub h [] = true := by
  cases h <;> simp [containsSub, prefChk]

instance (mode : SearchMode) (query : Str) (b : Book) :
    Decidable (MatchesCI mode query b) :=
  decidable_of_iff
    (containsSub (lowerStr (selectField mode b)) (lowerStr query) = true)
    (containsSub_iff _ _)

theorem search_books_append (mode : SearchMode) (q : Str) (l₁ l₂ : List Book) :
    search_books (l₁ ++ l₂) mode q =
      search_books l₁ mode q ++ search_books l₂ mode q := by
  simp [search_books, List.filter_append]

theorem chunksOfAux_fuel_irrel : ∀ (fuel fuel2 c : Nat) (l : List Book),
    l.length ≤ fuel → l.length ≤ fuel2 →
    chunksOfAux fuel c l = chunksOfAux fuel2 c l := by
  intro fuel
  induction fuel with
  | zero =>
    intro fuel2 c l hl hl2
    cases l with
    | nil => cases fuel2 <;> cases c <;> rfl
    | cons x xs => simp at hl
  | succ n ih =>
    intro fuel2 c l hl hl2
    cases l with
    | nil => cases fuel2 <;> cases c <;> rfl
    | cons x xs =>
      cases c with
      | zero => cases fuel2 <;> rfl
      | succ c =>
        cases fuel2 with
        | zero => simp at hl2
        | succ m =>
          simp only [chunksOfAux]
          congr 1
          exact ih m (c + 1) _
            (by simp [List.length_drop] at hl ⊢; omega)
            (by simp [List.length_drop] at hl2 ⊢; omega)

theorem chunksOf_cons (c : Nat) (x : Book) (xs : List Book) :
    chunksOf (c + 1) (x :: xs) =
      ((x :: xs).take (c + 1)) ::
        chunksOf (c + 1) ((x :: xs).drop (c + 1)) := by
  unfold chunksOf
  simp only [List.length_cons, chunksOfAux]
  congr 1
  exact chunksOfAux_fuel_irrel _ _ _ _
    (by simp [List.length_drop]) le_rfl

theorem chunksOf_flatten_search (mode : SearchMode) (q : Str) :
    ∀ (fuel c : Nat) (l : List Book), l.length ≤ fuel →
      List.flatten ((chunksOf (c + 1) l).map
        (fun ck => search_books ck mode q)) = search_books l mode q := by
  intro fuel
  induction fuel with
  | zero =>
    intro c l hl
    have hnil : l = [] := by cases l <;> simp_all
    subst hnil
    simp [chunksOf, chunksOfAux, search_books]
  | succ n ih =>
    intro c l hl
    cases l with
    | nil => simp [chunksOf, chunksOfAux, search_books]
    | cons x xs =>
      rw [chunksOf_cons]
      simp only [List.map_cons, List.flatten_cons]
      rw [ih c _ (by simp [List.length_drop] at hl ⊢; omega)]
      rw [← search_books_append, List.take_append_drop]

/-! ## Claims about the search engine -/

/-- Claim C7: for every collection of books, mode, and query,
`search_books` returns exactly the books whose field selected by the mode
contains the query as a case-insensitive substring, and the result is a
sublist of the input, so the matching books keep their relative input
order (the function is pure, so the input collection is untouched). -/
theorem c7_search_books_exact_ordered (books : List Book)
    (mode : SearchMode) (query : Str) :
    List.Sublist (search_books books mode query) books ∧
    ∀ b, b ∈ search_books books mode query ↔
      b ∈ books ∧ MatchesCI mode query b := by
  constructor
  · exact List.filter_sublist _
  · intro b
    simp [search_books, List.mem_filter, MatchesCI, containsSub_iff]

/-- Claim C8: searching with the empty query returns every book in the
original order, and searching with a query that matches no book's selected
field returns the empty sequence. -/
theorem c8_empty_query_and_no_match (books : List Book) (mode : SearchMode) :
    search_books books mode [] = books ∧
    ∀ q : Str, (∀ b ∈ books, ¬ MatchesCI mode q b) →
      search_books books mode q = [] := by
  constructor
  · simp [search_books, lowerStr, containsSub_nil_right]
  · intro q hq
    rw [search_books]
    refine List.filter_eq_nil_iff.mpr ?_
    intro b hb
    have hm := hq b hb
    simp only [MatchesCI] at hm
    simp only [Bool.not_eq_true]
    rw [Bool.eq_false_iff]
    intro hc
    exact hm ((containsSub_iff _ _).mp hc)

/-- Concrete book used to instantiate claim C8's hypothesis. -/
def goGuide : Book :=
  ⟨2, ("Go Guide").toList, [], [], 2020, 1, 1⟩

theorem c8_empty_query_and_no_match_witness :
    (∀ b ∈ [goGuide], ¬ MatchesCI SearchMode.Title (("rust").toList) b) ∧
    search_books [goGuide] SearchMode.Title (("rust").toList) = [] := by
  refine ⟨by decide, ?_⟩
  exact (c8_empty_query_and_no_match _ SearchMode.Title).2 _ (by decide)

/-- Claim C6: for every snapshot, mode parameter, query, and reported cpu
count, the chunked dispatch of `search_handler` (contiguous chunks of size
`ceil(N / max cpus 1)`, each chunk filtered with `search_books`, partial
results concatenated in chunk order) returns exactly the sequence a single
`search_books` run over the whole snapshot returns; in particular the
result does not depend on the worker count. -/
theorem c6_search_handler_eq_search_books (books : List Book)
    (m : Option Str) (q : Str) (numCpus : Nat) :
    search_handler books m q numCpus =
      search_books books (resolveMode m) q := by
  rw [search_handler]
  by_cases hlen : books.length = 0
  · have hnil : books = [] := List.length_eq_zero.mp hlen
    subst hnil
    simp [search_books]
  · simp only [if_neg hlen]
    have hnc : 1 ≤ Nat.max numCpus 1 := Nat.le_max_right numCpus 1
    have hcs : 0 < (books.length + Nat.max numCpus 1 - 1) / Nat.max numCpus 1 := by
      apply Nat.div_pos (by omega) (by omega)
    rw [show (books.length + Nat.max numCpus 1 - 1) / Nat.max numCpus 1 =
          ((books.length + Nat.max numCpus 1 - 1) / Nat.max numCpus 1 - 1) + 1 from by
      omega]
    exact chunksOf_flatten_search _ _ books.length _ books le_rfl

theorem find?_none_append {α : Type _} (p : α → Bool) (xs ys : List α)
    (h : ∀ x ∈ xs, p x = false) :
    List.find? p (xs ++ ys) = List.find? p ys := by
  induction xs with
  | nil => rfl
  | cons a as ih =>
    rw [List.cons_append, List.find?_cons_of_neg _ (by simp [h a])]
    exact ih (fun x hx => h x (by simp [hx]))

theorem map_eq_self_of_id {α : Type _} (f : α → α) (l : List α)
    (h : ∀ a, f a = a) : l.map f = l := by
  induction l <;> simp_all

/-! ## Claims about the lending transaction manager -/

/-- Claim C10: `create_book` stores and returns a book whose
`available_copies` equals the requested `total_copies`: a freshly inserted
book starts with all of its copies available. -/
theorem c10_create_book_all_copies_available (payload : NewBook)
    (st : DBState) :
    (create_book payload st).1.available_copies = payload.total_copies ∧
    (create_book payload st).1.total_copies = payload.total_copies ∧
    (create_book payload st).2.books =
      st.books ++ [(create_book payload st).1] := by
  refine ⟨rfl, rfl, rfl⟩

/-- Claim C1: when the requested book's `available_copies` is zero or
negative (and the due date passed validation, so the stock check is
reached), `create_loan` answers with the rejection loan (`id = -1`) and
leaves the whole state — stock and loan table — unchanged. -/
theorem c1_out_of_stock_rejected (today : Date) (now : NaiveDateTime)
    (payload : NewLoan) (st : DBState) (d : Date) (b : Book)
    (hparse : parseDueDate payload.due_date = some d)
    (hdate : Date.lt d today = false)
    (hbook : st.books.find? (fun bk => bk.id == payload.book_id) = some b)
    (havail : b.available_copies ≤ 0) :
    (create_loan today now payload st).1.id = -1 ∧
    (create_loan today now payload st).2 = st := by
  have hc : create_loan today now payload st =
      (errorLoan payload ⟨d, 0⟩, st) := by
    unfold create_loan
    rw [hparse]
    simp [hdate, hbook, havail]
  rw [hc]
  exact ⟨rfl, rfl⟩

/-- Concrete database for claim C1's witness: one book with
`available_copies = 0`. -/
def c1State : DBState :=
  ⟨[⟨1, [], [], [], 2020, 2, 0⟩], [], 2, 1⟩

theorem c1_out_of_stock_rejected_witness :
    (parseDueDate (("2100-01-01").toList) = some ⟨2100, 1, 1⟩ ∧
      Date.lt ⟨2100, 1, 1⟩ ⟨2026, 10, 12⟩ = false ∧
      c1State.books.find? (fun bk => bk.id == (1 : Int)) =
        some ⟨1, [], [], [], 2020, 2, 0⟩ ∧
      (⟨1, [], [], [], 2020, 2, 0⟩ : Book).available_copies ≤ 0) ∧
    ((create_loan ⟨2026, 10, 12⟩ NaiveDateTime.MIN
        ⟨1, 1, ("2100-01-01").toList⟩ c1State).1.id = -1 ∧
      (create_loan ⟨2026, 10, 12⟩ NaiveDateTime.MIN
        ⟨1, 1, ("2100-01-01").toList⟩ c1State).2 = c1State) := by
  refine ⟨⟨by decide, by decide, by decide, by decide⟩, ?_⟩
  exact c1_out_of_stock_rejected ⟨2026, 10, 12⟩ NaiveDateTime.MIN
    ⟨1, 1, ("2100-01-01").toList⟩ c1State ⟨2100, 1, 1⟩
    ⟨1, [], [], [], 2020, 2, 0⟩ (by decide) (by decide) (by decide) (by decide)

/-- Claim C5: a borrow request whose due date fails to parse, or parses to
a date before today, is rejected by `create_loan` before any database
access: the answer is the rejection loan (`id = -1`) and the state — every
book's stock and the loan table — is unchanged. -/
theorem c5_invalid_due_date_rejected (today : Date) (now : NaiveDateTime)
    (payload : NewLoan) (st : DBState)
    (hbad : parseDueDate payload.due_date = none ∨
      ∃ d, parseDueDate payload.due_date = some d ∧
        Date.lt d today = true) :
    (create_loan today now payload st).1.id = -1 ∧
    (create_loan today now payload st).2 = st := by
  rcases hbad with h | ⟨d, hd, hlt⟩
  · simp [create_loan, h, errorLoan]
  · simp [create_loan, hd, hlt, errorLoan]

/-- Concrete database for claim C5's witness. -/
def c5State : DBState :=
  ⟨[⟨1, [], [], [], 2020, 2, 2⟩], [], 2, 1⟩

theorem c5_invalid_due_date_rejected_witness :
    (parseDueDate (("2020-01-01").toList) = none ∨
      ∃ d, parseDueDate (("2020-01-01").toList) = some d ∧
        Date.lt d ⟨2026, 10, 12⟩ = true) ∧
    ((create_loan ⟨2026, 10, 12⟩ NaiveDateTime.MIN
        ⟨1, 1, ("2020-01-01").toList⟩ c5State).1.id = -1 ∧
      (create_loan ⟨2026, 10, 12⟩ NaiveDateTime.MIN
        ⟨1, 1, ("2020-01-01").toList⟩ c5State).2 = c5State) := by
  refine ⟨Or.inr ⟨⟨2020, 1, 1⟩, by decide, by decide⟩, ?_⟩
  exact c5_invalid_due_date_rejected ⟨2026, 10, 12⟩ NaiveDateTime.MIN
    ⟨1, 1, ("2020-01-01").toList⟩ c5State
    (Or.inr ⟨⟨2020, 1, 1⟩, by decide, by decide⟩)

/-- Claim C4: whenever a borrow succeeds (valid due date, book present,
positive stock, fresh loan id), borrowing and then returning the created
loan restores the `books` table exactly — in particular every book's
`available_copies` equals its value before the borrow — and the return
responds `true`. -/
theorem c4_borrow_then_return_restores_stock (today : Date)
    (now now2 : NaiveDateTime) (payload : NewLoan) (st : DBState)
    (d : Date) (b : Book)
    (hparse : parseDueDate payload.due_date = some d)
    (hdate : Date.lt d today = false)
    (hbook : st.books.find? (fun bk => bk.id == payload.book_id) = some b)
    (havail : 0 < b.available_copies)
    (hfresh : ∀ l ∈ st.loans, l.id ≠ st.nextLoanId) :
    (return_loan now2 (create_loan today now payload st).1.id
        (create_loan today now payload st).2).2.books = st.books ∧
    (return_loan now2 (create_loan today now payload st).1.id
        (create_loan today now payload st).2).1 = true := by
  have hneg : ¬ b.available_copies ≤ 0 := by omega
  have hc : create_loan today now payload st =
      (⟨st.nextLoanId, payload.book_id, payload.member_id, now,
          ⟨d, 0⟩, none⟩,
        ⟨st.books.map (fun bk =>
            if bk.id == payload.book_id then
              { bk with available_copies := bk.available_copies - 1 }
            else bk),
          st.loans ++ [⟨st.nextLoanId, payload.book_id, payload.member_id,
            now, ⟨d, 0⟩, none⟩],
          st.nextBookId, st.nextLoanId + 1⟩) := by
    unfold create_loan
    rw [hparse]
    simp [hdate, hbook, hneg]
  rw [hc]
  have hfind : List.find? (fun l => l.id == st.nextLoanId)
      (st.loans ++ [⟨st.nextLoanId, payload.book_id, payload.member_id,
        now, ⟨d, 0⟩, none⟩]) =
      some ⟨st.nextLoanId, payload.book_id, payload.member_id,
        now, ⟨d, 0⟩, none⟩ := by
    rw [find?_none_append _ st.loans _
      (fun l hl => by simp [hfresh l hl])]
    simp [List.find?]
  unfold return_loan
  dsimp only
  rw [hfind]
  dsimp only
  refine ⟨?_, rfl⟩
  rw [List.map_map]
  refine map_eq_self_of_id _ _ ?_
  intro bk
  by_cases hbk : bk.id = payload.book_id
  · obtain ⟨i, t, a, c, y, tc, ac⟩ := bk
    simp only at hbk
    subst hbk
    simp
  · simp [hbk]

/-- Concrete database for claim C4's witness: one book with one available
copy and no loans. -/
def c4State : DBState :=
  ⟨[⟨1, [], [], [], 2020, 1, 1⟩], [], 2, 1⟩

theorem c4_borrow_then_return_restores_stock_witness :
    (parseDueDate (("2100-01-01").toList) = some ⟨2100, 1, 1⟩ ∧
      Date.lt ⟨2100, 1, 1⟩ ⟨2026, 10, 12⟩ = false ∧
      c4State.books.find? (fun bk => bk.id == (1 : Int)) =
        some ⟨1, [], [], [], 2020, 1, 1⟩ ∧
      (0 : Int) < (⟨1, [], [], [], 2020, 1, 1⟩ : Book).available_copies ∧
      (∀ l ∈ c4State.loans, l.id ≠ c4State.nextLoanId)) ∧
    ((return_loan NaiveDateTime.MIN
        (create_loan ⟨2026, 10, 12⟩ NaiveDateTime.MIN
          ⟨1, 1, ("2100-01-01").toList⟩ c4State).1.id
        (create_loan ⟨2026, 10, 12⟩ NaiveDateTime.MIN
          ⟨1, 1, ("2100-01-01").toList⟩ c4State).2).2.books =
        c4State.books ∧
      (return_loan NaiveDateTime.MIN
        (create_loan ⟨2026, 10, 12⟩ NaiveDateTime.MIN
          ⟨1, 1, ("2100-01-01").toList⟩ c4State).1.id
        (create_loan ⟨2026, 10, 12⟩ NaiveDateTime.MIN
          ⟨1, 1, ("2100-01-01").toList⟩ c4State).2).1 = true) := by
  refine ⟨⟨by decide, by decide, by decide, by decide, by decide⟩, ?_⟩
  exact c4_borrow_then_return_restores_stock ⟨2026, 10, 12⟩
    NaiveDateTime.MIN NaiveDateTime.MIN ⟨1, 1, ("2100-01-01").toList⟩
    c4State ⟨2100, 1, 1⟩ ⟨1, [], [], [], 2020, 1, 1⟩
    (by decide) (by decide) (by decide) (by decide) (by decide)

/-- Database exhibiting the return-path stock bug for claim C2: one book
with `total_copies = available_copies = 1` and one loan on it that has
already been returned. -/
def c2State : DBState :=
  ⟨[⟨1, [], [], [], 2020, 1, 1⟩],
    [⟨1, 1, 1, NaiveDateTime.MIN, NaiveDateTime.MIN,
      some NaiveDateTime.MIN⟩], 2, 2⟩

/-- Claim C2 fails on the code: the state `c2State` satisfies the stock
invariant `0 ≤ available_copies ≤ total_copies`, yet `return_loan` on the
already-returned loan increments the stock past `total_copies` and breaks
the invariant. -/
theorem c2_return_loan_breaks_stock_invariant :
    stockInvariant c2State ∧
    ¬ stockInvariant (return_loan ⟨⟨2026, 10, 12⟩, 0⟩ 1 c2State).2 := by
  decide

/-- Database for claim C3: a book with `available_copies = 1` and a loan
on it whose `returned_at` is already set. -/
def c3State : DBState :=
  ⟨[⟨1, [], [], [], 2021, 2, 1⟩],
    [⟨1, 1, 1, NaiveDateTime.MIN, NaiveDateTime.MIN,
      some NaiveDateTime.MIN⟩], 2, 2⟩

/-- Claim C3 fails on the code: the loan of `c3State` is already returned
(`returned_at` set), yet a further `return_loan` on it still succeeds and
increments the book's `available_copies` from 1 to 2 instead of leaving
the stock unchanged. -/
theorem c3_second_return_still_increments :
    (∀ l ∈ c3State.loans, l.returned_at ≠ none) ∧
    (return_loan ⟨⟨2026, 10, 12⟩, 0⟩ 1 c3State).1 = true ∧
    (return_loan ⟨⟨2026, 10, 12⟩, 0⟩ 1 c3State).2.books =
      [⟨1, [], [], [], 2021, 2, 2⟩] := by
  decide

end SudutBuku
